import Mathlib

set_option maxRecDepth 8192

/-!
Shallow embedding of `src/web/sitemap.rs` (docs.rs sitemap and about-page
handlers) and proofs of the specification claims about it.

Modelling conventions:
* Rust `String` path segments that are inspected byte-wise (`letter.len()`)
  are modelled as `List Char` together with an explicit UTF-8 byte length;
  segments only compared for equality (about-page names) are Lean `String`s.
* `DateTime<Utc>` values are modelled as whole seconds since the Unix epoch
  (`Int`); chrono's `%+` formatting at second granularity is reimplemented
  over a proleptic-Gregorian civil-date conversion.
* The PostgreSQL aggregation query is modelled as a Lean function over an
  explicit database state (lists of crate and release records), following
  the SQL text: inner join, `WHERE rustdoc_status = true AND name ILIKE $1`,
  `GROUP BY crates.name, releases.target_name`, `MAX(release_time)`.
* Fallible collaborators (connection pool, query execution, the
  `spawn_blocking` join) are modelled as explicit outcome parameters; the
  handlers return `Except AxumNope _`.
-/

/-- Rust `char::is_ascii_lowercase`: true exactly for `'a'..='z'`. -/
def isAsciiLowercase (c : Char) : Bool := 97 ≤ c.toNat && c.toNat ≤ 122

/-- Number of bytes of the UTF-8 encoding of a character. -/
def charUtf8Size (c : Char) : Nat :=
  if c.toNat < 128 then 1
  else if c.toNat < 2048 then 2
  else if c.toNat < 65536 then 3
  else 4

/-- Rust `String::len`: the UTF-8 byte length of the string. -/
def utf8Len (s : List Char) : Nat := (s.map charUtf8Size).sum

/-- ASCII lowercasing of one character, as PostgreSQL `ILIKE` applies to
ASCII letters. -/
def asciiLower (c : Char) : Char :=
  if 65 ≤ c.toNat && c.toNat ≤ 90 then Char.ofNat (c.toNat + 32) else c

/-- Days since 1970-01-01 of a proleptic-Gregorian civil date
(Howard Hinnant's `days_from_civil`). -/
def daysFromCivil (y : Int) (m d : Nat) : Int :=
  let yAdj : Int := if m ≤ 2 then y - 1 else y
  let era : Int := yAdj.fdiv 400
  let yoe : Nat := (yAdj - era * 400).toNat
  let doy : Nat := (153 * (if m > 2 then m - 3 else m + 9) + 2) / 5 + d - 1
  let doe : Nat := yoe * 365 + yoe / 4 - yoe / 100 + doy
  era * 146097 + (doe : Int) - 719468

/-- Civil date (year, month, day) of a count of days since 1970-01-01
(Howard Hinnant's `civil_from_days`). -/
def civilFromDays (z : Int) : Int × Nat × Nat :=
  let zs : Int := z + 719468
  let era : Int := zs.fdiv 146097
  let doe : Nat := (zs - era * 146097).toNat
  let yoe : Nat := (doe - doe / 1460 + doe / 36524 - doe / 146096) / 365
  let y : Int := (yoe : Int) + era * 400
  let doy : Nat := doe - (365 * yoe + yoe / 4 - yoe / 100)
  let mp : Nat := (5 * doy + 2) / 153
  let d : Nat := doy - (153 * mp + 2) / 5 + 1
  let m : Nat := if mp < 10 then mp + 3 else mp - 9
  (if m ≤ 2 then y + 1 else y, m, d)

/-- Decimal rendering of a natural number zero-padded to two digits. -/
def pad2 (n : Nat) : String := if n < 10 then "0" ++ toString n else toString n

/-- Decimal rendering of a natural number zero-padded to four digits. -/
def pad4 (n : Nat) : String :=
  if n < 10 then "000" ++ toString n
  else if n < 100 then "00" ++ toString n
  else if n < 1000 then "0" ++ toString n
  else toString n

/-- Rendering of a (possibly negative) year, zero-padded to four digits. -/
def yearStr (y : Int) : String :=
  if y < 0 then "-" ++ pad4 (-y).toNat else pad4 y.toNat

/-- Chrono `%+` (ISO 8601 / RFC 3339) formatting of a UTC timestamp given in
whole seconds since the epoch: `YYYY-MM-DDTHH:MM:SS+00:00` (the fractional
part is empty for whole seconds, and the offset of `Utc` is `+00:00`). -/
def formatTimestampUtc (t : Int) : String :=
  let days := t.fdiv 86400
  let sod := (t - days * 86400).toNat
  let ymd := civilFromDays days
  yearStr ymd.1 ++ "-" ++ pad2 ymd.2.1 ++ "-" ++ pad2 ymd.2.2 ++ "T" ++
    pad2 (sod / 3600) ++ ":" ++ pad2 (sod % 3600 / 60) ++ ":" ++ pad2 (sod % 60) ++
    "+00:00"

/-- The fixed floor instant `Utc.ymd(2022, 8, 28).and_hms(0, 0, 0)` from
`sitemap_handler`: 2022-08-28T00:00:00Z as epoch seconds. -/
def floorTime : Int := daysFromCivil 2022 8 28 * 86400

/-- Modelled from the spec: DateFloorNormalizer, `normalize(t) = max(t, FLOOR)`
where `FLOOR` is 2022-08-28T00:00:00Z.  Spec-side definition used to compare
the code's row construction against the spec's words. -/
def specDateFloorNormalize (t : Int) : Int := max t floorTime

/-- Record of the `crates` table columns used by the query. -/
structure Crate where
  id : Nat
  name : String
deriving DecidableEq

/-- Record of the `releases` table columns used by the query. -/
structure Release where
  crate_id : Nat
  target_name : String
  release_time : Int
  rustdoc_status : Bool
deriving DecidableEq

/-- Database state visible to the sitemap query. -/
structure Db where
  crates : List Crate
  releases : List Release
deriving DecidableEq

/-- One row of the aggregation query result: `crates.name`,
`releases.target_name`, `MAX(releases.release_time)`. -/
structure QueryRow where
  name : String
  target_name : String
  release_time : Int
deriving DecidableEq

/-- Rust struct `SitemapRow`. -/
structure SitemapRow where
  crate_name : String
  last_modified : String
  target_name : String
deriving DecidableEq

/-- Rust struct `SitemapXml`. -/
structure SitemapXml where
  releases : List SitemapRow
deriving DecidableEq

/-- Rust struct `SitemapIndexXml`. -/
structure SitemapIndexXml where
  sitemaps : List Char
deriving DecidableEq

/-- Error type of the axum handlers: `AxumNope::ResourceNotFound` for failed
validation, internal errors (carrying their anyhow message) for collaborator
failures. -/
inductive AxumNope where
  | resourceNotFound
  | internalError (msg : String)
deriving DecidableEq

/-- Outcome of `pool.get()` and of `conn.query(...)`: the pool may fail to
yield a connection, and an obtained connection serves a database state but
may fail the query itself. -/
inductive PoolConn where
  | connFail (msg : String)
  | conn (db : Db) (queryErr : Option String)
deriving DecidableEq

/-- Translation of `('a'..='z').collect()` in `sitemapindex_handler`. -/
def sitemapindex_handler : SitemapIndexXml :=
  ⟨(List.range 26).map fun i => Char.ofNat (97 + i)⟩

/-- PostgreSQL `name ILIKE '<pre>%'`: the ASCII-lowercased name starts with
the ASCII-lowercased pattern head. -/
def ilikeStartsWith (name : String) (pre : List Char) : Bool :=
  (name.data.map asciiLower).take pre.length == pre.map asciiLower

/-- The `WHERE` clause together with the join condition of the query, for a
crate row and a release row. -/
def releaseJoins (c : Crate) (pre : List Char) (r : Release) : Bool :=
  decide (r.crate_id = c.id) && r.rustdoc_status && ilikeStartsWith c.name pre

/-- Pre-grouping result set of the SQL query: `crates INNER JOIN releases ON
releases.crate_id = crates.id WHERE rustdoc_status = true AND crates.name
ILIKE $1`, one row per matching (crate, release) pair. -/
def joinedRows (db : Db) (pre : List Char) : List QueryRow :=
  db.crates.flatMap fun c =>
    (db.releases.filter (releaseJoins c pre)).map fun r =>
      ⟨c.name, r.target_name, r.release_time⟩

/-- Grouping key of the SQL `GROUP BY crates.name, releases.target_name`. -/
def rowKey (r : QueryRow) : String × String := (r.name, r.target_name)

/-- Release times of the rows of one group. -/
def groupTimes (rows : List QueryRow) (k : String × String) : List Int :=
  (rows.filter fun r => decide (rowKey r = k)).map QueryRow.release_time

/-- Maximum of a list of timestamps (SQL `MAX`; groups are never empty, the
base value for `[]` is irrelevant). -/
def maxOfList : List Int → Int
  | [] => 0
  | t :: ts => ts.foldl max t

/-- Result set of the full aggregation query: one row per distinct grouping
key, carrying the maximum release time of its group.  SQL leaves the group
order unspecified; it is modelled by the order `List.dedup` yields. -/
def queryRows (db : Db) (pre : List Char) : List QueryRow :=
  ((joinedRows db pre).map rowKey).dedup.map fun k =>
    ⟨k.1, k.2, maxOfList (groupTimes (joinedRows db pre) k)⟩

/-- The row mapping inside `sitemap_handler`'s closure: copy `name` and
`target_name`, floor the release time at `floorTime` (`.max(Utc.ymd(2022, 8,
28).and_hms(0, 0, 0))`) and format it with `%+`. -/
def rowToSitemap (r : QueryRow) : SitemapRow :=
  ⟨r.name, formatTimestampUtc (max r.release_time floorTime), r.target_name⟩

/-- The closure passed to `spawn_blocking`: get a connection from the pool,
run the aggregation query, map the rows; any step may fail with an anyhow
error message. -/
def blockingClosure (letter : List Char) : PoolConn → Except String (List SitemapRow)
  | PoolConn.connFail msg => Except.error msg
  | PoolConn.conn _ (some msg) => Except.error msg
  | PoolConn.conn db none => Except.ok ((queryRows db letter).map rowToSitemap)

/-- The part of `sitemap_handler` after validation: await the blocking task
(`.context("failed to join thread")`), then propagate the closure's own
result with `?`. -/
def sitemapAfterValidation (letter : List Char) (pool : PoolConn)
    (join : Option String) : Except AxumNope SitemapXml :=
  match join with
  | some j => Except.error (AxumNope.internalError ("failed to join thread: " ++ j))
  | none =>
    match blockingClosure letter pool with
    | Except.error m => Except.error (AxumNope.internalError m)
    | Except.ok rows => Except.ok ⟨rows⟩

/-- Translation of `sitemap_handler`: reject a path segment whose byte length
is not 1, then reject a first character that is not ASCII lowercase, then run
the blocking query task.  `join = some j` models a failed `spawn_blocking`
join with message `j`. -/
def sitemap_handler (letter : List Char) (pool : PoolConn)
    (join : Option String) : Except AxumNope SitemapXml :=
  if utf8Len letter ≠ 1 then Except.error AxumNope.resourceNotFound
  else
    match letter.head? with
    | some ch =>
      if isAsciiLowercase ch = false then Except.error AxumNope.resourceNotFound
      else sitemapAfterValidation letter pool join
    | none => sitemapAfterValidation letter pool join

/-- Iron response status values used by `about_handler`. -/
inductive Status where
  | notFound
deriving DecidableEq

/-- Response of `about_handler`: either an `AboutPage` (template string plus
active tab) or an `ErrorPage` (title, optional message, status). -/
inductive AboutResponse where
  | page (template : String) (active_tab : String)
  | errorPage (title : String) (message : Option String) (status : Status)
deriving DecidableEq

/-- The not-found message of `about_handler` (the Rust string literal with
its line continuation resolved). -/
def aboutNotFoundMessage : String :=
  "This /about page does not exist. Perhaps you are interested in <a href=\"https://github.com/rust-lang/docs.rs/tree/master/templates/core/about\">creating</a> it?"

/-- The `match` at the top of `about_handler`, resolving a page name:
`"about" | "index" => "index"`, the four like-named pages map to themselves,
anything else falls to the error arm (`none`). -/
def resolveAboutName (name : String) : Option String :=
  if name = "about" ∨ name = "index" then some "index"
  else if name = "badges" ∨ name = "metadata" ∨ name = "redirections" ∨ name = "download"
    then some name
  else none

/-- Translation of `about_handler`, applied to the last path segment of the
request URL: resolve the name, then either render
`core/about/{name}.html` with `active_tab = name`, or return the fixed
not-found error page. -/
def about_handler (name : String) : AboutResponse :=
  match resolveAboutName name with
  | some n => AboutResponse.page ("core/about/" ++ n ++ ".html") n
  | none =>
    AboutResponse.errorPage "The requested page does not exist"
      (some aboutNotFoundMessage) Status.notFound

/-- Modelled from the spec: the default crate build limits
(`docbuilder::Limits` is outside the analysed sources; the spec only speaks
of "default build limits").  Represented as an abstract tagged value so that
equality with the default is a non-trivial statement. -/
structure Limits where
  tag : String
deriving DecidableEq

/-- Modelled from the spec: `Limits::default()`. -/
def limitsDefault : Limits := ⟨"default"⟩

/-- Rust struct `AboutBuilds`. -/
structure AboutBuilds where
  rustc_version : Option String
  limits : Limits
  active_tab : String
deriving DecidableEq

/-- Outcome of `pool.get()` followed by
`get_config::<String>(&mut conn, ConfigName::RustcVersion)` inside the
blocking closure of `about_builds_handler`: the pool may fail, and the
config lookup either fails or yields an optional stored value (`Ok(None)`
when no entry exists). -/
inductive ConfigPool where
  | connFail (msg : String)
  | conn (lookup : Except String (Option String))

/-- Translation of `about_builds_handler`: await the blocking config lookup
(`.context("failed to join thread")` then `?` on the closure result), and on
success build `AboutBuilds` with the default limits and active tab
`"builds"`. -/
def about_builds_handler (pool : ConfigPool) (join : Option String) :
    Except AxumNope AboutBuilds :=
  match join with
  | some j => Except.error (AxumNope.internalError ("failed to join thread: " ++ j))
  | none =>
    match pool with
    | ConfigPool.connFail m => Except.error (AxumNope.internalError m)
    | ConfigPool.conn (Except.error m) => Except.error (AxumNope.internalError m)
    | ConfigPool.conn (Except.ok v) =>
      Except.ok ⟨v, limitsDefault, "builds"⟩

/-! Helper lemmas about the embedded definitions. -/

theorem le_foldl_max (ts : List Int) (t : Int) : t ≤ ts.foldl max t := by
  induction ts generalizing t with
  | nil => exact le_refl t
  | cons a ts ih =>
    rw [List.foldl_cons]
    exact le_trans (le_max_left t a) (ih (max t a))

theorem mem_le_foldl_max (ts : List Int) (t x : Int) (hx : x ∈ ts) :
    x ≤ ts.foldl max t := by
  induction ts generalizing t with
  | nil => cases hx
  | cons a ts ih =>
    rw [List.foldl_cons]
    rcases List.mem_cons.mp hx with h | h
    · subst h
      exact le_trans (le_max_right t x) (le_foldl_max ts (max t x))
    · exact ih (max t a) h

theorem foldl_max_cases (ts : List Int) (t : Int) :
    ts.foldl max t = t ∨ ts.foldl max t ∈ ts := by
  induction ts generalizing t with
  | nil => exact Or.inl rfl
  | cons a ts ih =>
    rw [List.foldl_cons]
    rcases ih (max t a) with h | h
    · rcases max_choice t a with h2 | h2
      · exact Or.inl (h.trans h2)
      · exact Or.inr (List.mem_cons.mpr (Or.inl (h.trans h2)))
    · exact Or.inr (List.mem_cons.mpr (Or.inr h))

theorem maxOfList_mem (l : List Int) (h : l ≠ []) : maxOfList l ∈ l := by
  cases l with
  | nil => exact absurd rfl h
  | cons t ts =>
    simp only [maxOfList]
    rcases foldl_max_cases ts t with h2 | h2
    · rw [h2]; exact List.mem_cons_self t ts
    · exact List.mem_cons_of_mem t h2

theorem le_maxOfList (l : List Int) (x : Int) (hx : x ∈ l) : x ≤ maxOfList l := by
  cases l with
  | nil => cases hx
  | cons t ts =>
    simp only [maxOfList]
    rcases List.mem_cons.mp hx with h | h
    · subst h; exact le_foldl_max ts x
    · exact mem_le_foldl_max ts t x h

theorem mem_groupTimes (rows : List QueryRow) (k : String × String) (t : Int) :
    t ∈ groupTimes rows k ↔ (⟨k.1, k.2, t⟩ : QueryRow) ∈ rows := by
  obtain ⟨k1, k2⟩ := k
  simp only [groupTimes, List.mem_map, List.mem_filter, decide_eq_true_eq, rowKey,
    Prod.mk.injEq]
  constructor
  · rintro ⟨⟨n, tg, tm⟩, ⟨hr, h1, h2⟩, ht⟩
    subst h1; subst h2; subst ht
    exact hr
  · intro h
    exact ⟨⟨k1, k2, t⟩, ⟨h, rfl, rfl⟩, rfl⟩

theorem mem_joinedRows (db : Db) (pre : List Char) (q : QueryRow) :
    q ∈ joinedRows db pre ↔
      ∃ c ∈ db.crates, ∃ r ∈ db.releases,
        r.crate_id = c.id ∧ r.rustdoc_status = true ∧
        ilikeStartsWith c.name pre = true ∧ c.name = q.name ∧
        r.target_name = q.target_name ∧ r.release_time = q.release_time := by
  simp only [joinedRows, releaseJoins, List.mem_flatMap, List.mem_map, List.mem_filter,
    Bool.and_eq_true, decide_eq_true_eq]
  constructor
  · rintro ⟨c, hc, r, ⟨hr, ⟨hid, hstat⟩, hlike⟩, hq⟩
    subst hq
    exact ⟨c, hc, r, hr, hid, hstat, hlike, rfl, rfl, rfl⟩
  · rintro ⟨c, hc, r, hr, hid, hstat, hlike, hn, ht, htm⟩
    refine ⟨c, hc, r, ⟨hr, ⟨hid, hstat⟩, hlike⟩, ?_⟩
    obtain ⟨qn, qt, qm⟩ := q
    simp only at hn ht htm
    subst hn; subst ht; subst htm
    rfl

theorem mem_queryRows (db : Db) (pre : List Char) (q : QueryRow) :
    q ∈ queryRows db pre ↔
      q ∈ joinedRows db pre ∧
        ∀ t, (⟨q.name, q.target_name, t⟩ : QueryRow) ∈ joinedRows db pre →
          t ≤ q.release_time := by
  constructor
  · intro hq
    simp only [queryRows, List.mem_map, List.mem_dedup] at hq
    obtain ⟨⟨k1, k2⟩, hk, hfk⟩ := hq
    obtain ⟨r, hrJ, hkey⟩ := hk
    have hrmem : r.release_time ∈ groupTimes (joinedRows db pre) (k1, k2) := by
      rw [mem_groupTimes]
      obtain ⟨n, tg, tm⟩ := r
      simp only [rowKey, Prod.mk.injEq] at hkey
      obtain ⟨h1, h2⟩ := hkey
      subst h1; subst h2
      exact hrJ
    have hne : groupTimes (joinedRows db pre) (k1, k2) ≠ [] := by
      intro hnil; rw [hnil] at hrmem; cases hrmem
    have hmax_mem := maxOfList_mem _ hne
    rw [mem_groupTimes] at hmax_mem
    subst hfk
    refine ⟨hmax_mem, ?_⟩
    intro t ht
    exact le_maxOfList _ t ((mem_groupTimes (joinedRows db pre) (k1, k2) t).mpr ht)
  · rintro ⟨hqJ, hbound⟩
    simp only [queryRows, List.mem_map, List.mem_dedup]
    refine ⟨rowKey q, ⟨q, hqJ, rfl⟩, ?_⟩
    obtain ⟨n, tg, tm⟩ := q
    simp only [rowKey] at hbound ⊢
    have h1 : tm ∈ groupTimes (joinedRows db pre) (n, tg) :=
      (mem_groupTimes _ _ _).mpr hqJ
    have hne : groupTimes (joinedRows db pre) (n, tg) ≠ [] := by
      intro hnil; rw [hnil] at h1; cases h1
    have h2 := maxOfList_mem _ hne
    rw [mem_groupTimes] at h2
    have h3 : maxOfList (groupTimes (joinedRows db pre) (n, tg)) ≤ tm := hbound _ h2
    have h4 : tm ≤ maxOfList (groupTimes (joinedRows db pre) (n, tg)) :=
      le_maxOfList _ _ h1
    rw [le_antisymm h3 h4]

theorem queryRows_keys_nodup (db : Db) (pre : List Char) :
    ((queryRows db pre).map rowKey).Nodup := by
  have hmap : (queryRows db pre).map rowKey =
      ((joinedRows db pre).map rowKey).dedup := by
    simp only [queryRows, List.map_map]
    have hid : rowKey ∘ (fun k : String × String =>
        (⟨k.1, k.2, maxOfList (groupTimes (joinedRows db pre) k)⟩ : QueryRow)) = id := by
      funext k; obtain ⟨k1, k2⟩ := k; rfl
    rw [hid, List.map_id]
  rw [hmap]
  exact List.nodup_dedup _

theorem sitemapAfterValidation_ne_notFound (letter : List Char) (pool : PoolConn)
    (join : Option String) :
    sitemapAfterValidation letter pool join ≠ Except.error AxumNope.resourceNotFound := by
  cases join with
  | some j => simp [sitemapAfterValidation]
  | none =>
    cases pool with
    | connFail m => simp [sitemapAfterValidation, blockingClosure]
    | conn db qe =>
      cases qe with
      | some m => simp [sitemapAfterValidation, blockingClosure]
      | none => simp [sitemapAfterValidation, blockingClosure]

theorem charUtf8Size_pos (c : Char) : 1 ≤ charUtf8Size c := by
  unfold charUtf8Size
  split
  · omega
  · split
    · omega
    · split <;> omega

theorem charUtf8Size_of_lower (c : Char) (h : isAsciiLowercase c = true) :
    charUtf8Size c = 1 := by
  simp only [isAsciiLowercase, Bool.and_eq_true, decide_eq_true_eq] at h
  simp only [charUtf8Size]
  rw [if_pos]
  omega

theorem two_le_utf8Len (c d : Char) (rest : List Char) :
    2 ≤ utf8Len (c :: d :: rest) := by
  simp only [utf8Len, List.map_cons, List.sum_cons]
  have h1 := charUtf8Size_pos c
  have h2 := charUtf8Size_pos d
  omega

theorem sitemap_handler_valid (c : Char) (pool : PoolConn) (join : Option String)
    (h : isAsciiLowercase c = true) :
    sitemap_handler [c] pool join = sitemapAfterValidation [c] pool join := by
  have hlen : utf8Len [c] = 1 := by
    simp [utf8Len, charUtf8Size_of_lower c h]
  simp [sitemap_handler, hlen, h]

theorem sitemap_handler_notFound_iff (letter : List Char) (pool : PoolConn)
    (join : Option String) :
    sitemap_handler letter pool join = Except.error AxumNope.resourceNotFound ↔
      ¬ ∃ c, letter = [c] ∧ isAsciiLowercase c = true := by
  cases letter with
  | nil =>
    constructor
    · rintro - ⟨c, hc, -⟩; cases hc
    · intro _h
      simp [sitemap_handler, utf8Len]
  | cons c rest =>
    cases rest with
    | nil =>
      by_cases h : isAsciiLowercase c = true
      · rw [sitemap_handler_valid c pool join h]
        constructor
        · intro hEq; exact absurd hEq (sitemapAfterValidation_ne_notFound _ _ _)
        · intro hn; exact absurd ⟨c, rfl, h⟩ hn
      · rw [Bool.not_eq_true] at h
        constructor
        · rintro - ⟨c', hc', hl⟩
          rw [List.cons.injEq] at hc'
          obtain ⟨h1, -⟩ := hc'
          subst h1
          rw [h] at hl
          cases hl
        · intro _h
          by_cases hsize : charUtf8Size c = 1
          · have hlen : utf8Len [c] = 1 := by simp [utf8Len, hsize]
            simp [sitemap_handler, hlen, h]
          · have hlen : utf8Len [c] ≠ 1 := by
              simp only [utf8Len, List.map_cons, List.map_nil, List.sum_cons,
                List.sum_nil, Nat.add_zero]
              exact hsize
            simp [sitemap_handler, hlen]
    | cons d rest2 =>
      have h2 : utf8Len (c :: d :: rest2) ≠ 1 := by
        have := two_le_utf8Len c d rest2; omega
      constructor
      · rintro - ⟨c', hc', -⟩
        rw [List.cons.injEq] at hc'
        obtain ⟨-, hrest⟩ := hc'
        cases hrest
      · intro _h
        simp [sitemap_handler, h2]

theorem empty_db_sitemap_ok (c : Char) (h : isAsciiLowercase c = true) :
    sitemap_handler [c] (PoolConn.conn ⟨[], []⟩ none) none = Except.ok ⟨[]⟩ := by
  rw [sitemap_handler_valid c _ _ h]
  rfl

/-! Claim theorems. -/

/-- C1: the shard endpoint fails with the not-found validation error exactly
when the raw path segment is not a single ASCII lowercase letter; on a
single-lowercase-letter segment validation succeeds and the handler proceeds
to the blocking query stage. -/
theorem shard_key_validation (letter : List Char) (pool : PoolConn)
    (join : Option String) :
    (sitemap_handler letter pool join = Except.error AxumNope.resourceNotFound ↔
      ¬ ∃ c, letter = [c] ∧ isAsciiLowercase c = true) ∧
    (∀ c, letter = [c] → isAsciiLowercase c = true →
      sitemap_handler letter pool join = sitemapAfterValidation letter pool join) :=
  ⟨sitemap_handler_notFound_iff letter pool join,
   fun c hc h => by rw [hc]; exact sitemap_handler_valid c pool join h⟩

theorem shard_key_validation_witness :
    sitemap_handler ['a'] (PoolConn.conn ⟨[], []⟩ none) none =
      sitemapAfterValidation ['a'] (PoolConn.conn ⟨[], []⟩ none) none :=
  (shard_key_validation ['a'] (PoolConn.conn ⟨[], []⟩ none) none).2 'a' rfl (by decide)

/-- C2: the sitemap index builder returns exactly the 26 letters a through z
in ascending order; it takes no input at all (in particular no database
state) and cannot fail. -/
theorem sitemapindex_always_az :
    sitemapindex_handler.sitemaps =
      ['a', 'b', 'c', 'd', 'e', 'f', 'g', 'h', 'i', 'j', 'k', 'l', 'm',
       'n', 'o', 'p', 'q', 'r', 's', 't', 'u', 'v', 'w', 'x', 'y', 'z'] ∧
    sitemapindex_handler.sitemaps.length = 26 ∧
    List.Pairwise (fun a b => a < b) sitemapindex_handler.sitemaps :=
  ⟨by decide, by decide, by decide⟩

/-- C3: the last_modified string of a shard sitemap row is the fixed textual
formatting of `max(t, FLOOR)` with FLOOR = 2022-08-28T00:00:00Z, and for any
release time before the floor the string is exactly
"2022-08-28T00:00:00+00:00". -/
theorem sitemap_last_modified (n tgt : String) (t : Int) :
    (rowToSitemap ⟨n, tgt, t⟩).last_modified =
      formatTimestampUtc (specDateFloorNormalize t) ∧
    (t < floorTime →
      (rowToSitemap ⟨n, tgt, t⟩).last_modified = "2022-08-28T00:00:00+00:00") := by
  constructor
  · rfl
  · intro h
    show formatTimestampUtc (max t floorTime) = _
    rw [max_eq_right (le_of_lt h)]
    decide

theorem sitemap_last_modified_witness :
    (rowToSitemap ⟨"some_random_crate", "x86_64-unknown-linux-gnu",
        1577836800⟩).last_modified = "2022-08-28T00:00:00+00:00" :=
  (sitemap_last_modified "some_random_crate" "x86_64-unknown-linux-gnu"
    1577836800).2 (by decide)

/-- C4: the aggregation result holds one row per (package name, target name)
pair among exactly the successfully built packages matching the shard prefix
case-insensitively, each carrying the maximum release time of its group; the
grouping keys are pairwise distinct, and on an empty database the shard
handler still succeeds with an empty document. -/
theorem shard_query_aggregation (db : Db) (pre : List Char) :
    (∀ q : QueryRow, q ∈ queryRows db pre ↔
        q ∈ joinedRows db pre ∧
          ∀ t, (⟨q.name, q.target_name, t⟩ : QueryRow) ∈ joinedRows db pre →
            t ≤ q.release_time) ∧
    (∀ q : QueryRow, q ∈ joinedRows db pre ↔
        ∃ c ∈ db.crates, ∃ r ∈ db.releases,
          r.crate_id = c.id ∧ r.rustdoc_status = true ∧
          ilikeStartsWith c.name pre = true ∧ c.name = q.name ∧
          r.target_name = q.target_name ∧ r.release_time = q.release_time) ∧
    ((queryRows db pre).map rowKey).Nodup ∧
    (∀ c : Char, isAsciiLowercase c = true →
      sitemap_handler [c] (PoolConn.conn ⟨[], []⟩ none) none = Except.ok ⟨[]⟩) :=
  ⟨mem_queryRows db pre, mem_joinedRows db pre, queryRows_keys_nodup db pre,
   fun c h => empty_db_sitemap_ok c h⟩

theorem shard_query_aggregation_witness :
    ((⟨"serde", "x86_64-apple-darwin", 1600000000⟩ : QueryRow) ∈
      joinedRows ⟨[⟨1, "serde"⟩], [⟨1, "x86_64-apple-darwin", 1600000000, true⟩]⟩
        ['s']) ∧
    sitemap_handler ['a'] (PoolConn.conn ⟨[], []⟩ none) none = Except.ok ⟨[]⟩ :=
  ⟨(((shard_query_aggregation
        ⟨[⟨1, "serde"⟩], [⟨1, "x86_64-apple-darwin", 1600000000, true⟩]⟩ ['s']).1
      ⟨"serde", "x86_64-apple-darwin", 1600000000⟩).1 (by decide)).1,
   (shard_query_aggregation ⟨[], []⟩ ['a']).2.2.2 'a' (by decide)⟩

/-- C5: the about-page resolver maps "about" and "index" to the index
template, maps "badges", "metadata", "redirections" and "download" to their
like-named templates, and passes the resolved name through as the active
tab. -/
theorem about_known_pages :
    about_handler "about" = AboutResponse.page "core/about/index.html" "index" ∧
    about_handler "index" = AboutResponse.page "core/about/index.html" "index" ∧
    about_handler "badges" = AboutResponse.page "core/about/badges.html" "badges" ∧
    about_handler "metadata" = AboutResponse.page "core/about/metadata.html" "metadata" ∧
    about_handler "redirections" =
      AboutResponse.page "core/about/redirections.html" "redirections" ∧
    about_handler "download" = AboutResponse.page "core/about/download.html" "download" :=
  ⟨by decide, by decide, by decide, by decide, by decide, by decide⟩

/-- C6 counterexample: for the unknown page name "security" the error page's
title is "The requested page does not exist" (capital T), which is not the
string "the requested page does not exist" stated by the claim. -/
theorem about_title_counterexample :
    about_handler "security" =
      AboutResponse.errorPage "The requested page does not exist"
        (some aboutNotFoundMessage) Status.notFound ∧
    "The requested page does not exist" ≠ "the requested page does not exist" :=
  ⟨by decide, by decide⟩

/-- C6 (amended): every unknown about-page name yields an error page with
title "The requested page does not exist", a message containing the
contribution location for new pages, and not-found status. -/
theorem about_unknown_error_page (name : String)
    (h : ¬ (name = "about" ∨ name = "index" ∨ name = "badges" ∨ name = "metadata" ∨
      name = "redirections" ∨ name = "download")) :
    about_handler name =
      AboutResponse.errorPage "The requested page does not exist"
        (some aboutNotFoundMessage) Status.notFound ∧
    ∃ before after : String, aboutNotFoundMessage =
      before ++ "https://github.com/rust-lang/docs.rs/tree/master/templates/core/about"
        ++ after := by
  push_neg at h
  obtain ⟨h1, h2, h3, h4, h5, h6⟩ := h
  constructor
  · simp [about_handler, resolveAboutName, h1, h2, h3, h4, h5, h6]
  · exact ⟨"This /about page does not exist. Perhaps you are interested in <a href=\"",
      "\">creating</a> it?", rfl⟩

theorem about_unknown_error_page_witness :
    about_handler "security2" =
      AboutResponse.errorPage "The requested page does not exist"
        (some aboutNotFoundMessage) Status.notFound :=
  (about_unknown_error_page "security2" (by decide)).1

/-- C7: the shard handler's not-found outcome depends only on the raw
segment (an invalid key short-circuits before any collaborator is
consulted); for a valid key every worker-join, connection or query failure
propagates as an internal error (join failures carry the "failed to join
thread" context, connection and query failures their own message), and an
internal error is never the not-found validation error. -/
theorem shard_error_propagation (letter : List Char) (pool pool' : PoolConn)
    (join join' : Option String) :
    (sitemap_handler letter pool join = Except.error AxumNope.resourceNotFound →
      sitemap_handler letter pool' join' = Except.error AxumNope.resourceNotFound) ∧
    (∀ c, letter = [c] → isAsciiLowercase c = true →
      (∀ j, join = some j →
        sitemap_handler letter pool join =
          Except.error (AxumNope.internalError ("failed to join thread: " ++ j))) ∧
      (∀ m, join = none → pool = PoolConn.connFail m →
        sitemap_handler letter pool join = Except.error (AxumNope.internalError m)) ∧
      (∀ m db, join = none → pool = PoolConn.conn db (some m) →
        sitemap_handler letter pool join = Except.error (AxumNope.internalError m))) ∧
    (∀ m, AxumNope.internalError m ≠ AxumNope.resourceNotFound) := by
  refine ⟨?_, ?_, ?_⟩
  · intro h
    rw [sitemap_handler_notFound_iff] at h ⊢
    exact h
  · rintro c rfl hl
    rw [sitemap_handler_valid c pool join hl]
    refine ⟨?_, ?_, ?_⟩
    · rintro j rfl; rfl
    · rintro m rfl rfl; rfl
    · rintro m db rfl rfl; rfl
  · intro m h; cases h

theorem shard_error_propagation_witness :
    sitemap_handler ['a'] (PoolConn.connFail "db gone") none =
      Except.error (AxumNope.internalError "db gone") :=
  ((shard_error_propagation ['a'] (PoolConn.connFail "db gone")
      (PoolConn.connFail "db gone") none none).2.1 'a' rfl
    (by decide)).2.1 "db gone" rfl rfl

/-- C8: the builder maps query rows to sitemap rows one-to-one and in order:
the closure returns exactly the mapped list, of the same length, and the map
copies the package and target names unchanged, transforming only the
timestamp (floored and formatted). -/
theorem shard_rows_frame (db : Db) (pre : List Char) :
    blockingClosure pre (PoolConn.conn db none) =
      Except.ok ((queryRows db pre).map rowToSitemap) ∧
    ((queryRows db pre).map rowToSitemap).length = (queryRows db pre).length ∧
    ∀ q : QueryRow,
      (rowToSitemap q).crate_name = q.name ∧
      (rowToSitemap q).target_name = q.target_name ∧
      (rowToSitemap q).last_modified =
        formatTimestampUtc (max q.release_time floorTime) :=
  ⟨rfl, by simp, fun q => ⟨rfl, rfl, rfl⟩⟩

/-- C9: every successfully resolved about page has template identifier
"core/about/" ++ active_tab ++ ".html", the active tab is one of the five
known names, and "about" and "index" produce identical results. -/
theorem about_template_invariant (name t a : String)
    (h : about_handler name = AboutResponse.page t a) :
    t = "core/about/" ++ a ++ ".html" ∧
    (a = "index" ∨ a = "badges" ∨ a = "metadata" ∨ a = "redirections" ∨
      a = "download") ∧
    about_handler "about" = about_handler "index" := by
  cases hr : resolveAboutName name with
  | none =>
    rw [about_handler, hr] at h
    exact absurd h (by simp)
  | some n =>
    rw [about_handler, hr] at h
    injection h with h1 h2
    subst h1; subst h2
    refine ⟨rfl, ?_, by decide⟩
    unfold resolveAboutName at hr
    by_cases c1 : name = "about" ∨ name = "index"
    · rw [if_pos c1] at hr
      injection hr with hn
      exact Or.inl hn.symm
    · rw [if_neg c1] at hr
      by_cases c2 : name = "badges" ∨ name = "metadata" ∨ name = "redirections" ∨
        name = "download"
      · rw [if_pos c2] at hr
        injection hr with hn
        subst hn
        rcases c2 with h | h | h | h
        · exact Or.inr (Or.inl h)
        · exact Or.inr (Or.inr (Or.inl h))
        · exact Or.inr (Or.inr (Or.inr (Or.inl h)))
        · exact Or.inr (Or.inr (Or.inr (Or.inr h)))
      · rw [if_neg c2] at hr
        cases hr

theorem about_template_invariant_witness :
    "core/about/badges.html" = "core/about/" ++ "badges" ++ ".html" ∧
    ("badges" = "index" ∨ "badges" = "badges" ∨ "badges" = "metadata" ∨
      "badges" = "redirections" ∨ "badges" = "download") ∧
    about_handler "about" = about_handler "index" :=
  about_template_invariant "badges" "core/about/badges.html" "badges" (by decide)

/-- C10: the about-builds handler succeeds whenever the join and the config
lookup succeed, in particular with no stored compiler version (rustc_version
= none); every success carries the default limits and active tab "builds";
every failure is an internal error, arising exactly from a join failure, a
connection failure or a lookup failure. -/
theorem about_builds_behavior (pool : ConfigPool) (join : Option String) :
    (∀ v, join = none → pool = ConfigPool.conn (Except.ok v) →
      about_builds_handler pool join = Except.ok ⟨v, limitsDefault, "builds"⟩) ∧
    (∀ ab, about_builds_handler pool join = Except.ok ab →
      ab.limits = limitsDefault ∧ ab.active_tab = "builds") ∧
    (∀ e, about_builds_handler pool join = Except.error e →
      ∃ m, e = AxumNope.internalError m) ∧
    (∀ j, join = some j → about_builds_handler pool join =
      Except.error (AxumNope.internalError ("failed to join thread: " ++ j))) ∧
    (∀ m, join = none →
      pool = ConfigPool.connFail m ∨ pool = ConfigPool.conn (Except.error m) →
      about_builds_handler pool join = Except.error (AxumNope.internalError m)) := by
  refine ⟨?_, ?_, ?_, ?_, ?_⟩
  · rintro v rfl rfl; rfl
  · intro ab h
    cases join with
    | some j => simp [about_builds_handler] at h
    | none =>
      cases pool with
      | connFail m => simp [about_builds_handler] at h
      | conn lk =>
        cases lk with
        | error m => simp [about_builds_handler] at h
        | ok v =>
          simp only [about_builds_handler, Except.ok.injEq] at h
          subst h
          exact ⟨rfl, rfl⟩
  · intro e h
    cases join with
    | some j =>
      simp only [about_builds_handler, Except.error.injEq] at h
      exact ⟨_, h.symm⟩
    | none =>
      cases pool with
      | connFail m =>
        simp only [about_builds_handler, Except.error.injEq] at h
        exact ⟨_, h.symm⟩
      | conn lk =>
        cases lk with
        | error m =>
          simp only [about_builds_handler, Except.error.injEq] at h
          exact ⟨_, h.symm⟩
        | ok v => simp [about_builds_handler] at h
  · rintro j rfl; rfl
  · rintro m rfl (rfl | rfl) <;> rfl

theorem about_builds_behavior_witness :
    about_builds_handler (ConfigPool.conn (Except.ok none)) none =
      Except.ok ⟨none, limitsDefault, "builds"⟩ :=
  (about_builds_behavior (ConfigPool.conn (Except.ok none)) none).1 none rfl rfl
